import Mathlib

/-!
Verification development for the task-flow graph subsystem of the
ai_project_plannner repository.  The definitions below are shallow
embeddings of the TypeScript source, mainly of
components/ProjectFlowDisplay.tsx, services/projectService.ts and
services/collaborationService.ts.  Pixel coordinates are modelled as
rationals, DOM measurement as an optional rectangle per node id, and the
React state setters and callback props as explicit return values
(the next transient state plus an optional committed store mutation).
-/

/-- A point on the canvas, in logical pixel coordinates. -/
structure Point where
  x : Rat
  y : Rat
deriving DecidableEq, Repr

/-- The measured rendered rectangle of a task card
(getBoundingClientRect width and height, offsetWidth and offsetHeight). -/
structure Rect where
  width : Rat
  height : Rat
deriving DecidableEq, Repr

/-- The graph-relevant subset of a ProjectTask: its id, its optional canvas
position and its optional outgoing-edge list, exactly the fields the
flow-display component reads. -/
structure ProjectTask where
  id : String
  position : Option Point
  nextTaskIds : Option (List String)
deriving DecidableEq, Repr

/-- The ConnectorInfo record built by calculateConnectors.  The source fields
named from and to are renamed fromPoint and toPoint because from is a
reserved word in Lean. -/
structure ConnectorInfo where
  id : String
  fromPoint : Point
  toPoint : Point
  sourceId : String
  targetId : String
deriving DecidableEq, Repr

/-- The transient connect-gesture state: source node id and the anchored
start position of the preview line. -/
structure ConnectingState where
  fromId : String
  fromPos : Point
deriving DecidableEq, Repr

/-- A committed Graph Store mutation of one node's outgoing edges: the
pair of arguments passed to the onUpdateTaskConnections callback. -/
structure Commit where
  sourceId : String
  nextTaskIds : List String
deriving DecidableEq, Repr

/-- The x coordinate the component reads, sourceTask.position?.x with 0
substituted when the position is unset. -/
def posX (t : ProjectTask) : Rat :=
  match t.position with
  | none => 0
  | some p => p.x

/-- The y coordinate the component reads, with 0 substituted when the
position is unset. -/
def posY (t : ProjectTask) : Rat :=
  match t.position with
  | none => 0
  | some p => p.y

/-- The outgoing edge list the component reads, sourceTask.nextTaskIds with
the empty list substituted when the field is undefined. -/
def nextIds (t : ProjectTask) : List String :=
  t.nextTaskIds.getD []

/-- One insertion into a JavaScript Set viewed as an insertion-ordered list:
already-present elements are ignored, new ones are appended. -/
def jsSetInsert (acc : List String) (x : String) : List String :=
  if x ∈ acc then acc else acc ++ [x]

/-- The semantics of the source expression Array.from(new Set(l)): the list
with duplicates removed, keeping the first occurrence of each element. -/
def jsSetDedup (l : List String) : List String :=
  l.foldl jsSetInsert []

theorem mem_foldl_jsSetInsert (l : List String) :
    ∀ (acc : List String) (x : String),
      x ∈ l.foldl jsSetInsert acc ↔ x ∈ acc ∨ x ∈ l := by
  induction l with
  | nil => simp
  | cons a t ih =>
    intro acc x
    rw [List.foldl_cons, ih]
    unfold jsSetInsert
    by_cases h : a ∈ acc
    · simp only [if_pos h, List.mem_cons]
      constructor
      · rintro (hx | hx)
        · exact Or.inl hx
        · exact Or.inr (Or.inr hx)
      · rintro (hx | hx | hx)
        · exact Or.inl hx
        · exact Or.inl (hx ▸ h)
        · exact Or.inr hx
    · simp only [if_neg h, List.mem_append, List.mem_singleton, List.mem_cons]
      tauto

theorem mem_jsSetDedup (l : List String) (x : String) :
    x ∈ jsSetDedup l ↔ x ∈ l := by
  unfold jsSetDedup
  rw [mem_foldl_jsSetInsert]
  simp

theorem nodup_foldl_jsSetInsert (l : List String) :
    ∀ acc : List String, acc.Nodup → (l.foldl jsSetInsert acc).Nodup := by
  induction l with
  | nil => intro acc h; simpa using h
  | cons a t ih =>
    intro acc h
    rw [List.foldl_cons]
    apply ih
    unfold jsSetInsert
    by_cases ha : a ∈ acc
    · simpa [ha] using h
    · simp [ha, List.nodup_append, h]

theorem nodup_jsSetDedup (l : List String) : (jsSetDedup l).Nodup :=
  nodup_foldl_jsSetInsert l [] List.nodup_nil

theorem foldl_jsSetInsert_eq_append (l : List String) :
    ∀ acc : List String, l.Nodup → (∀ x ∈ l, x ∉ acc) →
      l.foldl jsSetInsert acc = acc ++ l := by
  induction l with
  | nil => intro acc _ _; simp
  | cons a t ih =>
    intro acc hnd hdisj
    rw [List.foldl_cons]
    have ha : a ∉ acc := hdisj a (List.mem_cons_self a t)
    have step : jsSetInsert acc a = acc ++ [a] := by simp [jsSetInsert, ha]
    rw [step, ih (acc ++ [a]) (List.Nodup.of_cons hnd)]
    · simp
    · intro x hx
      simp only [List.mem_append, List.mem_singleton]
      rintro (hxa | hxa)
      · exact hdisj x (List.mem_cons_of_mem a hx) hxa
      · exact (List.nodup_cons.mp hnd).1 (hxa ▸ hx)

theorem jsSetDedup_of_nodup {l : List String} (h : l.Nodup) :
    jsSetDedup l = l := by
  unfold jsSetDedup
  simpa using foldl_jsSetInsert_eq_append l [] h (by simp)

theorem jsSetDedup_concat_mem {l : List String} {b : String}
    (hb : b ∈ jsSetDedup l) : jsSetDedup (jsSetDedup l ++ [b]) = jsSetDedup l := by
  have hidem : jsSetDedup (jsSetDedup l) = jsSetDedup l :=
    jsSetDedup_of_nodup (nodup_jsSetDedup l)
  show List.foldl jsSetInsert [] (jsSetDedup l ++ [b]) = jsSetDedup l
  rw [List.foldl_append]
  show List.foldl jsSetInsert (jsSetDedup (jsSetDedup l)) [b] = jsSetDedup l
  rw [hidem]
  show jsSetInsert (jsSetDedup l) b = jsSetDedup l
  simp [jsSetInsert, hb]

/-- The capability flag canEdit of ProjectFlowDisplay, derived from the
userRole string. -/
def canEditOf (userRole : String) : Bool :=
  userRole == "owner" || userRole == "admin" || userRole == "editor"

/-- The capability flag canManage of ProjectFlowDisplay. -/
def canManageOf (userRole : String) : Bool :=
  userRole == "owner" || userRole == "admin"

/-- JavaScript coercion v || d applied to an optional numeric measurement:
d is substituted when the value is absent or zero, as in
draggedCardElement?.offsetWidth || 380. -/
def jsNumOr (v : Option Rat) (d : Rat) : Rat :=
  match v with
  | none => d
  | some x => if x = 0 then d else x

/-- Embedding of handleDragCardStart.  Returns the next pair of the
draggedTaskId ref and the dragOffset ref.  When canEdit is false the
handler returns immediately, leaving both refs unchanged; otherwise the
dragged id is recorded and, when the container is mounted, the offset
between the pointer and the task origin is captured. -/
def handleDragCardStart (canEdit : Bool) (tasks : List ProjectTask)
    (containerPresent : Bool) (clientX clientY containerLeft containerTop : Rat)
    (taskId : String) (prev : Option String × Point) : Option String × Point :=
  if !canEdit then prev
  else
    let task? := tasks.find? fun t => t.id == taskId
    let offset :=
      if containerPresent then
        Point.mk
          (clientX - containerLeft - ((task?.map posX).getD 0))
          (clientY - containerTop - ((task?.map posY).getD 0))
      else prev.2
    (some taskId, offset)

/-- Embedding of handleDrop.  The inputs are the pointer event coordinates,
the container rectangle origin and scrollable extent, the dragOffset ref,
the dragged id ref and the optional measured card size.  The result is the
committed updateNodePosition call, or none when the handler returns without
committing. -/
def handleDrop (canEdit : Bool) (containerPresent : Bool)
    (draggedTaskId : Option String)
    (clientX clientY containerLeft containerTop : Rat)
    (scrollableWidth scrollableHeight : Rat)
    (dragOffset : Point) (cardSize : Option Rect) : Option (String × Point) :=
  if !canEdit then none
  else
    match draggedTaskId with
    | none => none
    | some tid =>
      if !containerPresent then none
      else
        let cardWidth := jsNumOr (cardSize.map Rect.width) 380
        let cardHeight := jsNumOr (cardSize.map Rect.height) 280
        let newX0 := clientX - containerLeft - dragOffset.x
        let newY0 := clientY - containerTop - dragOffset.y
        let newX := max 0 (min newX0 (scrollableWidth - cardWidth))
        let newY := max 0 (min newY0 (scrollableHeight - cardHeight))
        some (tid, ⟨newX, newY⟩)

/-- Embedding of handleStartConnection.  Returns the next connectingState:
unchanged when canEdit is false or the container is unmounted, otherwise a
fresh ConnectingState anchored at the pointer position translated into
canvas-content coordinates. -/
def handleStartConnection (canEdit : Bool) (containerPresent : Bool)
    (clientX clientY containerLeft containerTop scrollLeft scrollTop : Rat)
    (taskId : String) (prev : Option ConnectingState) : Option ConnectingState :=
  if !canEdit then prev
  else if !containerPresent then prev
  else some ⟨taskId, ⟨clientX - containerLeft + scrollLeft,
                      clientY - containerTop + scrollTop⟩⟩

/-- Embedding of handleEndConnection.  Returns the next connectingState and
the optional committed onUpdateTaskConnections call.  When canEdit is
false the handler returns at once; with no active ConnectingState or a
target equal to the source the state is cleared with no commit; otherwise
the source task is looked up and, when found, a commit carrying the
deduplicated extended edge list is issued, and the state is cleared. -/
def handleEndConnection (canEdit : Bool) (tasks : List ProjectTask)
    (connectingState : Option ConnectingState) (targetTaskId : String) :
    Option ConnectingState × Option Commit :=
  if !canEdit then (connectingState, none)
  else
    match connectingState with
    | none => (none, none)
    | some cs =>
      if cs.fromId == targetTaskId then (none, none)
      else
        match tasks.find? fun t => t.id == cs.fromId with
        | none => (none, none)
        | some sourceTask =>
          (none, some ⟨sourceTask.id,
                       jsSetDedup (nextIds sourceTask ++ [targetTaskId])⟩)

/-- Embedding of handleDeleteConnection.  Returns the optional committed
onUpdateTaskConnections call: none when canEdit is false or the source is
not found, otherwise a commit carrying the source edge list with every
occurrence of the target id filtered out. -/
def handleDeleteConnection (canEdit : Bool) (tasks : List ProjectTask)
    (sourceTaskId targetTaskId : String) : Option Commit :=
  if !canEdit then none
  else
    match tasks.find? fun t => t.id == sourceTaskId with
    | none => none
    | some sourceTask =>
      some ⟨sourceTask.id, (nextIds sourceTask).filter fun i => i != targetTaskId⟩

/-- Embedding of handleMouseUp: a pointer-up on the canvas clears any
active connectingState and commits nothing. -/
def handleMouseUp (connectingState : Option ConnectingState) :
    Option ConnectingState × Option Commit :=
  match connectingState with
  | some _ => (none, none)
  | none => (none, none)

/-- Modelled from the spec: the Graph Store operation
setNodeConnections(sourceId, targetIds), the bulk replace that the parent
component performs when the onUpdateTaskConnections callback fires; the
parent component itself is not part of the provided sources. -/
def setNodeConnections (tasks : List ProjectTask) (sourceId : String)
    (targetIds : List String) : List ProjectTask :=
  tasks.map fun t =>
    if t.id == sourceId then { t with nextTaskIds := some targetIds } else t

/-- Applies an optional committed connection mutation to the store. -/
def applyCommit (tasks : List ProjectTask) : Option Commit → List ProjectTask
  | none => tasks
  | some c => setNodeConnections tasks c.sourceId c.nextTaskIds

/-- One full connect(a,b) round trip: the gesture handler runs with an
active ConnectingState from a, and its commit, if any, is applied to the
store. -/
def connectStep (tasks : List ProjectTask) (a b : String) : List ProjectTask :=
  applyCommit tasks (handleEndConnection true tasks (some ⟨a, ⟨0, 0⟩⟩) b).2

/-- One full disconnect(s,t) round trip through handleDeleteConnection. -/
def disconnectStep (tasks : List ProjectTask) (s t : String) : List ProjectTask :=
  applyCommit tasks (handleDeleteConnection true tasks s t)

/-- The connector record pushed by calculateConnectors for one edge, given
the source task, its measured rectangle, the resolved target task, its
measured rectangle and the target id. -/
def mkConn (sourceTask : ProjectTask) (sourceRect : Rect)
    (targetTask : ProjectTask) (targetRect : Rect) (targetId : String) :
    ConnectorInfo :=
  { id := "conn-" ++ sourceTask.id ++ "-" ++ targetId,
    fromPoint := ⟨posX sourceTask + sourceRect.width,
                  posY sourceTask + sourceRect.height / 2⟩,
    toPoint := ⟨posX targetTask, posY targetTask + targetRect.height / 2⟩,
    sourceId := sourceTask.id,
    targetId := targetId }

/-- The connectors contributed by one source task: nothing when its edge
list is empty or its card is unmeasurable, otherwise one connector per
target id whose task exists and whose card is measurable; unresolvable
targets are skipped silently. -/
def connectorsForSource (tasks : List ProjectTask) (rects : String → Option Rect)
    (sourceTask : ProjectTask) : List ConnectorInfo :=
  if (nextIds sourceTask).length > 0 then
    match rects sourceTask.id with
    | none => []
    | some sourceRect =>
      (nextIds sourceTask).filterMap fun targetId =>
        (tasks.find? fun t => t.id == targetId).bind fun targetTask =>
          (rects targetId).bind fun targetRect =>
            some (mkConn sourceTask sourceRect targetTask targetRect targetId)
  else []

/-- Embedding of calculateConnectors.  The rects argument stands for the
taskCardRefs map together with getBoundingClientRect: the measured
rectangle of the card for a node id, or none while that card is not
mounted.  The guard mirrors the early return when the container ref is
empty or the refs map is empty. -/
def calculateConnectors (containerPresent : Bool) (tasks : List ProjectTask)
    (rects : String → Option Rect) : List ConnectorInfo :=
  if !containerPresent || tasks.isEmpty then []
  else tasks.flatMap (connectorsForSource tasks rects)

/-- A realtime change notification payload as consumed by the subscription
callback: the table it concerns and the postgres event type. -/
structure RealtimePayload where
  table : String
  eventType : String
deriving DecidableEq, Repr

/-- What the subscription callback in ProjectFlowDisplay does with one
notification.  The refetchMembers action is listed because the spec claims
member notifications trigger a membership refetch; the code never
produces it. -/
inductive SyncAction where
  | reload
  | refetchMembers
  | noAction
deriving DecidableEq, Repr

/-- Embedding of the subscription callback passed to
subscribeToProjectUpdates in ProjectFlowDisplay: window.location.reload is
invoked exactly when the payload reports table projects with event type
UPDATE; every other payload is ignored. -/
def projectUpdateHandler (payload : RealtimePayload) : SyncAction :=
  if payload.table == "projects" && payload.eventType == "UPDATE" then
    SyncAction.reload
  else SyncAction.noAction

/-- One postgres_changes binding registered on the realtime channel. -/
structure ChannelBinding where
  event : String
  schema : String
  table : String
  filter : String
deriving DecidableEq, Repr

/-- Embedding of CollaborationService.subscribeToProjectUpdates: the single
channel named after the project carries two bindings, one for the projects
row and one for the project_members rows, and both bindings dispatch to
the same onUpdate callback. -/
def subscribeToProjectUpdates (projectId : String) : List ChannelBinding :=
  [⟨"*", "public", "projects", "id=eq." ++ projectId⟩,
   ⟨"*", "public", "project_members", "project_id=eq." ++ projectId⟩]

/-- Whether a payload is delivered to the onUpdate callback of the project
channel: some binding of the channel matches its table (the event pattern
of both bindings is the wildcard). -/
def deliveredOnChannel (projectId : String) (payload : RealtimePayload) : Bool :=
  (subscribeToProjectUpdates projectId).any fun b => b.table == payload.table

/-- An authenticated supabase user, as returned by auth.getUser. -/
structure AuthUser where
  id : String
deriving DecidableEq, Repr

/-- The single row returned by the membership query of getUserRole. -/
structure MemberRoleRow where
  role : String
deriving DecidableEq, Repr

/-- Embedding of CollaborationService.getUserRole.  The query argument
stands for the project_members select keyed by the user id; a failing
query, including the no-row failure that .single() reports, is the error
case.  The function returns null when no user is authenticated or the
query fails, and the stored role otherwise; it never throws. -/
def getUserRole (user : Option AuthUser)
    (query : String → Except String MemberRoleRow) : Option String :=
  match user with
  | none => none
  | some u =>
    match query u.id with
    | Except.error _ => none
    | Except.ok d => some d.role

/-- One row of the projects table as read back by the project service,
with the joined member role.  A null tasks_data column is the none case. -/
structure ProjectRow where
  id : String
  title : String
  goal : String
  target_date : String
  tasks_data : Option (List ProjectTask)
  gantt_data : Option String
  created_at : String
  updated_at : String
  owner_id : String
  is_public : Bool
  last_modified_by : Option String
  member_role : Option String
deriving DecidableEq, Repr

/-- The ProjectData record the project service hands to callers. -/
structure ProjectData where
  id : String
  title : String
  goal : String
  targetDate : String
  tasks : List ProjectTask
  ganttData : Option String
  createdAt : String
  updatedAt : String
  ownerId : String
  isPublic : Bool
  lastModifiedBy : Option String
  userRole : Option String
deriving DecidableEq, Repr

/-- The row-to-record mapping in ProjectService.getProject: tasks is
project.tasks_data || [] and userRole the joined member role. -/
def getProjectRecord (data : ProjectRow) : ProjectData :=
  { id := data.id, title := data.title, goal := data.goal,
    targetDate := data.target_date, tasks := data.tasks_data.getD [],
    ganttData := data.gantt_data, createdAt := data.created_at,
    updatedAt := data.updated_at, ownerId := data.owner_id,
    isPublic := data.is_public, lastModifiedBy := data.last_modified_by,
    userRole := data.member_role }

/-- The per-row mapping in ProjectService.getProjects. -/
def getProjectsRecord (project : ProjectRow) : ProjectData :=
  { id := project.id, title := project.title, goal := project.goal,
    targetDate := project.target_date, tasks := project.tasks_data.getD [],
    ganttData := project.gantt_data, createdAt := project.created_at,
    updatedAt := project.updated_at, ownerId := project.owner_id,
    isPublic := project.is_public, lastModifiedBy := project.last_modified_by,
    userRole := project.member_role }

/-- Embedding of ProjectService.getProjects on the fetched row list. -/
def getProjects (rows : List ProjectRow) : List ProjectData :=
  rows.map getProjectsRecord

/-- The row-to-record mapping in ProjectService.createProject, whose
userRole is the literal owner. -/
def createProjectRecord (data : ProjectRow) : ProjectData :=
  { id := data.id, title := data.title, goal := data.goal,
    targetDate := data.target_date, tasks := data.tasks_data.getD [],
    ganttData := data.gantt_data, createdAt := data.created_at,
    updatedAt := data.updated_at, ownerId := data.owner_id,
    isPublic := data.is_public, lastModifiedBy := data.last_modified_by,
    userRole := some "owner" }

/-- The row-to-record mapping in ProjectService.updateProject. -/
def updateProjectRecord (data : ProjectRow) : ProjectData :=
  { id := data.id, title := data.title, goal := data.goal,
    targetDate := data.target_date, tasks := data.tasks_data.getD [],
    ganttData := data.gantt_data, createdAt := data.created_at,
    updatedAt := data.updated_at, ownerId := data.owner_id,
    isPublic := data.is_public, lastModifiedBy := data.last_modified_by,
    userRole := data.member_role }

/-- Demo node A at the origin with one outgoing edge to B. -/
def demoA : ProjectTask :=
  { id := "A", position := some ⟨0, 0⟩, nextTaskIds := some ["B"] }

/-- Demo node B at x 500 with no outgoing edges. -/
def demoB : ProjectTask :=
  { id := "B", position := some ⟨500, 0⟩, nextTaskIds := none }

/-- The demo graph of the spec scenarios: nodes A and B, one edge A to B. -/
def demoTasks : List ProjectTask := [demoA, demoB]

/-- Demo measurements: both cards measurable at 380 by 280. -/
def demoRects (i : String) : Option Rect :=
  if i == "A" || i == "B" then some ⟨380, 280⟩ else none

theorem mem_connectorsForSource {tasks : List ProjectTask}
    {rects : String → Option Rect} {s : ProjectTask} {c : ConnectorInfo} :
    c ∈ connectorsForSource tasks rects s ↔
      ∃ srect, rects s.id = some srect ∧
        ∃ tid ∈ nextIds s,
          ∃ tt, tasks.find? (fun t => t.id == tid) = some tt ∧
            ∃ trect, rects tid = some trect ∧
              mkConn s srect tt trect tid = c := by
  unfold connectorsForSource
  by_cases hlen : (nextIds s).length > 0
  · rw [if_pos hlen]
    cases hsr : rects s.id with
    | none => simp
    | some srect =>
      simp [List.mem_filterMap, Option.bind_eq_some]
  · rw [if_neg hlen]
    have hnil : nextIds s = [] := by
      cases hn : nextIds s with
      | nil => rfl
      | cons a l => rw [hn] at hlen; simp at hlen
    simp [hnil]

theorem mem_calculateConnectors {tasks : List ProjectTask}
    {rects : String → Option Rect} {c : ConnectorInfo} :
    c ∈ calculateConnectors true tasks rects ↔
      ∃ s ∈ tasks, c ∈ connectorsForSource tasks rects s := by
  unfold calculateConnectors
  cases tasks with
  | nil => simp
  | cons a l => simp [List.mem_flatMap]

theorem find?_id_map_update (tasks : List ProjectTask) (a : String)
    (f : ProjectTask → ProjectTask) (hid : ∀ t, (f t).id = t.id) :
    (tasks.map f).find? (fun t => t.id == a) =
      (tasks.find? fun t => t.id == a).map f := by
  induction tasks with
  | nil => rfl
  | cons x l ih =>
    by_cases h : (x.id == a) = true
    · have h2 : ((f x).id == a) = true := by rw [hid x]; exact h
      simp [List.find?_cons, h, h2]
    · have h2 : ¬ (((f x).id == a) = true) := by rw [hid x]; exact h
      simp [List.find?_cons, h, h2, ih]

theorem setNodeConnections_idem (tasks : List ProjectTask) (sid : String)
    (v : List String) :
    setNodeConnections (setNodeConnections tasks sid v) sid v =
      setNodeConnections tasks sid v := by
  unfold setNodeConnections
  rw [List.map_map]
  apply List.map_congr_left
  intro t _
  by_cases ht : (t.id == sid) = true
  · simp [Function.comp, ht]
  · simp [Function.comp, ht]

theorem jsSetDedup_append_mem {l : List String} {b : String}
    (hnd : l.Nodup) (hb : b ∈ l) : jsSetDedup (l ++ [b]) = l := by
  show List.foldl jsSetInsert [] (l ++ [b]) = l
  rw [List.foldl_append]
  show jsSetInsert (jsSetDedup l) b = l
  rw [jsSetDedup_of_nodup hnd]
  simp [jsSetInsert, hb]

theorem endConnection_eq (tasks : List ProjectTask) (a b : String) (p : Point)
    (h : (a == b) = false) :
    handleEndConnection true tasks (some ⟨a, p⟩) b =
      (none, (tasks.find? fun t => t.id == a).map
        fun s => ⟨s.id, jsSetDedup (nextIds s ++ [b])⟩) := by
  unfold handleEndConnection
  cases hf : tasks.find? fun t => t.id == a <;> simp [h, hf]

/-- C1 counterexample: on the demo graph whose edge A to B already exists,
ending a connect gesture from A on B commits an onUpdateTaskConnections
store mutation anyway, so a store mutation is committed for the repeat,
contrary to the claim that none is. -/
theorem connect_repeat_commits_counterexample :
    "B" ∈ nextIds demoA ∧
    (handleEndConnection true demoTasks (some ⟨"A", ⟨0, 0⟩⟩) "B").2 =
      some ⟨"A", ["B"]⟩ ∧
    (handleEndConnection true demoTasks (some ⟨"A", ⟨0, 0⟩⟩) "B").2 ≠ none := by
  refine ⟨by decide, by decide, by decide⟩


/-- C1 amended: connect is idempotent at the edge-set level.  For every
pair of distinct ids, running the connect gesture twice yields the same
store as running it once, and for an already-connected pair the handler
still issues a commit, but one whose deduplicated list equals the existing
edge list, the deduplication being computed before the commit rather than
the commit being skipped. -/
theorem connect_idempotent_amended :
    ∀ (tasks : List ProjectTask) (a b : String), a ≠ b →
      (connectStep (connectStep tasks a b) a b = connectStep tasks a b ∧
       ∀ (p : Point) (s : ProjectTask),
         tasks.find? (fun t => t.id == a) = some s → b ∈ nextIds s →
         (nextIds s).Nodup →
         (handleEndConnection true tasks (some ⟨a, p⟩) b).2 =
           some ⟨s.id, nextIds s⟩) := by
  intro tasks a b h
  have hab : (a == b) = false := by
    cases hb : a == b
    · rfl
    · exact absurd (by simpa using hb) h
  constructor
  · cases hf : tasks.find? (fun t => t.id == a) with
    | none =>
      have hT1 : connectStep tasks a b = tasks := by
        unfold connectStep
        rw [endConnection_eq tasks a b _ hab, hf]
        rfl
      rw [hT1]
      exact hT1
    | some s =>
      have hT1 : connectStep tasks a b =
          setNodeConnections tasks s.id (jsSetDedup (nextIds s ++ [b])) := by
        unfold connectStep
        rw [endConnection_eq tasks a b _ hab, hf]
        rfl
      have hid : ∀ t : ProjectTask,
          ((fun t => if t.id == s.id then
              { t with nextTaskIds := some (jsSetDedup (nextIds s ++ [b])) }
            else t) t).id = t.id := by
        intro t
        by_cases ht : (t.id == s.id) = true
        · simp [ht]
        · simp [ht]
      have hfind1 : (setNodeConnections tasks s.id
            (jsSetDedup (nextIds s ++ [b]))).find? (fun t => t.id == a) =
          some { s with nextTaskIds := some (jsSetDedup (nextIds s ++ [b])) } := by
        unfold setNodeConnections
        rw [find?_id_map_update tasks a _ hid, hf, Option.map_some']
        simp
      have hconcat : jsSetDedup (jsSetDedup (nextIds s ++ [b]) ++ [b]) =
          jsSetDedup (nextIds s ++ [b]) :=
        jsSetDedup_concat_mem (by rw [mem_jsSetDedup]; simp)
      have hstep2 : handleEndConnection true
            (setNodeConnections tasks s.id (jsSetDedup (nextIds s ++ [b])))
            (some ⟨a, ⟨0, 0⟩⟩) b =
          (none, some ⟨s.id, jsSetDedup (nextIds s ++ [b])⟩) := by
        rw [endConnection_eq _ a b _ hab, hfind1, Option.map_some']
        have hnext :
            nextIds { s with nextTaskIds := some (jsSetDedup (nextIds s ++ [b])) } =
              jsSetDedup (nextIds s ++ [b]) := rfl
        rw [hnext, hconcat]
      show applyCommit (connectStep tasks a b)
        (handleEndConnection true (connectStep tasks a b)
          (some ⟨a, ⟨0, 0⟩⟩) b).2 = connectStep tasks a b
      rw [hT1, hstep2]
      exact setNodeConnections_idem tasks s.id _
  · intro p s hf hb hnd
    rw [endConnection_eq tasks a b p hab, hf]
    simp only [Option.map_some']
    rw [jsSetDedup_append_mem hnd hb]

/-- C1 witness: the amended idempotence instantiated on the demo graph
whose edge A to B already exists. -/
theorem connect_idempotent_amended_witness :
    connectStep (connectStep demoTasks "A" "B") "A" "B" =
      connectStep demoTasks "A" "B" ∧
    (handleEndConnection true demoTasks (some ⟨"A", ⟨0, 0⟩⟩) "B").2 =
      some ⟨"A", ["B"]⟩ := by
  have h := connect_idempotent_amended demoTasks "A" "B" (by decide)
  exact ⟨h.1, h.2 ⟨0, 0⟩ demoA (by decide) (by decide) (by decide)⟩

/-- C2: ending a connect gesture with no active ConnectingState, or on a
target equal to the source, cancels the gesture and commits no store
mutation, so the edge set is unchanged; a pointer-up on empty canvas
clears the ConnectingState and commits nothing.  All handlers are total
functions, so no error is raised. -/
theorem endConnection_cancel_no_mutation :
    ∀ (canEdit : Bool) (tasks : List ProjectTask) (targetTaskId : String)
      (cs : ConnectingState) (st : Option ConnectingState),
      handleEndConnection canEdit tasks none targetTaskId = (none, none) ∧
      (handleEndConnection canEdit tasks (some cs) cs.fromId).2 = none ∧
      handleEndConnection true tasks (some cs) cs.fromId = (none, none) ∧
      applyCommit tasks
        (handleEndConnection canEdit tasks (some cs) cs.fromId).2 = tasks ∧
      handleMouseUp st = (none, none) := by
  intro canEdit tasks targetTaskId cs st
  refine ⟨?_, ?_, ?_, ?_, ?_⟩
  · cases canEdit <;> rfl
  · cases canEdit <;> simp [handleEndConnection]
  · simp [handleEndConnection]
  · cases canEdit <;> simp [handleEndConnection, applyCommit]
  · cases st <;> rfl

/-- C3: the position committed by handleDrop equals the pointer position
minus the drag offset, clamped on both axes by max 0 and min into the
scrollable extent minus the effective card extent; whenever the card fits
in the scrollable extent on an axis, the committed coordinate lies in the
closed range from 0 to that difference. -/
theorem handleDrop_clamps :
    ∀ (canEdit containerPresent : Bool) (draggedTaskId : Option String)
      (clientX clientY containerLeft containerTop : Rat)
      (scrollableWidth scrollableHeight : Rat)
      (dragOffset : Point) (cardSize : Option Rect) (tid : String) (p : Point),
      handleDrop canEdit containerPresent draggedTaskId clientX clientY
          containerLeft containerTop scrollableWidth scrollableHeight
          dragOffset cardSize = some (tid, p) →
      (p.x = max 0 (min (clientX - containerLeft - dragOffset.x)
          (scrollableWidth - jsNumOr (cardSize.map Rect.width) 380)) ∧
       p.y = max 0 (min (clientY - containerTop - dragOffset.y)
          (scrollableHeight - jsNumOr (cardSize.map Rect.height) 280)) ∧
       (jsNumOr (cardSize.map Rect.width) 380 ≤ scrollableWidth →
         0 ≤ p.x ∧
           p.x ≤ scrollableWidth - jsNumOr (cardSize.map Rect.width) 380) ∧
       (jsNumOr (cardSize.map Rect.height) 280 ≤ scrollableHeight →
         0 ≤ p.y ∧
           p.y ≤ scrollableHeight - jsNumOr (cardSize.map Rect.height) 280)) := by
  intro canEdit containerPresent draggedTaskId clientX clientY containerLeft
    containerTop scrollableWidth scrollableHeight dragOffset cardSize tid p hdrop
  cases canEdit with
  | false => simp [handleDrop] at hdrop
  | true =>
    cases draggedTaskId with
    | none => simp [handleDrop] at hdrop
    | some tid0 =>
      cases containerPresent with
      | false => simp [handleDrop] at hdrop
      | true =>
        simp only [handleDrop, Bool.not_true, Bool.false_eq_true, if_false,
          Option.some.injEq, Prod.mk.injEq] at hdrop
        obtain ⟨-, hp⟩ := hdrop
        subst hp
        refine ⟨rfl, rfl, ?_, ?_⟩
        · intro hw
          constructor
          · exact le_max_left 0 _
          · exact max_le (by linarith) (min_le_right _ _)
        · intro hh
          constructor
          · exact le_max_left 0 _
          · exact max_le (by linarith) (min_le_right _ _)

/-- C3 witness: a concrete drop beyond the bottom edge is clamped to
y 520 and keeps x 100 inside the range. -/
theorem handleDrop_clamps_witness :
    handleDrop true true (some "A") 100 900 0 0 1200 800 ⟨0, 0⟩
        (some ⟨380, 280⟩) = some ("A", ⟨100, 520⟩) ∧
    0 ≤ (Point.mk 100 520).x ∧
    (Point.mk 100 520).x ≤ 1200 - jsNumOr ((some (Rect.mk 380 280)).map Rect.width) 380 ∧
    0 ≤ (Point.mk 100 520).y ∧
    (Point.mk 100 520).y ≤ 800 - jsNumOr ((some (Rect.mk 380 280)).map Rect.height) 280 := by
  have hdrop : handleDrop true true (some "A") 100 900 0 0 1200 800 ⟨0, 0⟩
      (some ⟨380, 280⟩) = some ("A", ⟨100, 520⟩) := by
    simp only [handleDrop, jsNumOr, Option.map_some']
    norm_num [min_def, max_def]
  have h := handleDrop_clamps true true (some "A") 100 900 0 0 1200 800
    ⟨0, 0⟩ (some ⟨380, 280⟩) "A" ⟨100, 520⟩ hdrop
  have hx := h.2.2.1 (by norm_num [jsNumOr])
  have hy := h.2.2.2 (by norm_num [jsNumOr])
  exact ⟨hdrop, hx.1, hx.2, hy.1, hy.2⟩

/-- C4: when node ids are unique, a connector for the pair given by a
source node s and target id tid is present in the calculateConnectors
output exactly when tid is one of the outgoing edges of s, a node with id
tid exists, and both cards are measurable; an edge failing the
measurability tests is simply absent while the rest of the pass is
unaffected. -/
theorem calculateConnectors_exists_iff
    (tasks : List ProjectTask) (rects : String → Option Rect)
    (s : ProjectTask) (tid : String)
    (hnodup : (tasks.map ProjectTask.id).Nodup) (hs : s ∈ tasks) :
    (∃ c ∈ calculateConnectors true tasks rects,
        c.sourceId = s.id ∧ c.targetId = tid) ↔
      (tid ∈ nextIds s ∧ (∃ tt ∈ tasks, tt.id = tid) ∧
        (rects s.id).isSome = true ∧ (rects tid).isSome = true) := by
  constructor
  · rintro ⟨c, hc, hcs, hct⟩
    rw [mem_calculateConnectors] at hc
    obtain ⟨s', hs', hcs'⟩ := hc
    rw [mem_connectorsForSource] at hcs'
    obtain ⟨srect, hsr, tid', htid', tt, htt, trect, htr, hceq⟩ := hcs'
    have hsid : s'.id = s.id := by rw [← hceq] at hcs; exact hcs
    have htideq : tid' = tid := by rw [← hceq] at hct; exact hct
    have hss : s' = s := List.inj_on_of_nodup_map hnodup hs' hs hsid
    have httpred : tt.id = tid := by
      have h0 := List.find?_some htt
      rw [htideq] at h0
      simpa using h0
    refine ⟨?_, ⟨tt, List.mem_of_find?_eq_some htt, httpred⟩, ?_, ?_⟩
    · rw [← hss, ← htideq]
      exact htid'
    · rw [← hsid, hsr]
      rfl
    · rw [← htideq, htr]
      rfl
  · rintro ⟨htid, ⟨tt0, htt0, htt0id⟩, hssome, htsome⟩
    obtain ⟨srect, hsr⟩ := Option.isSome_iff_exists.mp hssome
    obtain ⟨trect, htr⟩ := Option.isSome_iff_exists.mp htsome
    have hfsome : (tasks.find? fun t => t.id == tid).isSome = true := by
      rw [List.find?_isSome]
      exact ⟨tt0, htt0, by simp [htt0id]⟩
    obtain ⟨tt, htt⟩ := Option.isSome_iff_exists.mp hfsome
    refine ⟨mkConn s srect tt trect tid, ?_, rfl, rfl⟩
    rw [mem_calculateConnectors]
    refine ⟨s, hs, ?_⟩
    rw [mem_connectorsForSource]
    exact ⟨srect, hsr, tid, htid, tt, htt, trect, htr, rfl⟩

/-- C4 witness: the characterization applied to the demo graph, where the
edge A to B is measurable on both ends. -/
theorem calculateConnectors_exists_iff_witness :
    (∃ c ∈ calculateConnectors true demoTasks demoRects,
        c.sourceId = demoA.id ∧ c.targetId = "B") ↔
      ("B" ∈ nextIds demoA ∧ (∃ tt ∈ demoTasks, tt.id = "B") ∧
        (demoRects demoA.id).isSome = true ∧ (demoRects "B").isSome = true) :=
  calculateConnectors_exists_iff demoTasks demoRects demoA "B"
    (by decide) (by decide)

/-- C5: every connector in the calculateConnectors output takes its from
endpoint at the right-center of the source card, position x plus measured
width and position y plus half the measured height, and its to endpoint at
the left-center of the target card, position x and position y plus half
the measured height, the position of an unset node defaulting to the
origin through posX and posY. -/
theorem calculateConnectors_endpoints
    (containerPresent : Bool) (tasks : List ProjectTask)
    (rects : String → Option Rect) (c : ConnectorInfo)
    (hc : c ∈ calculateConnectors containerPresent tasks rects) :
    ∃ s ∈ tasks, s.id = c.sourceId ∧
      ∃ srect, rects s.id = some srect ∧
        c.fromPoint = ⟨posX s + srect.width, posY s + srect.height / 2⟩ ∧
        ∃ tt ∈ tasks, tt.id = c.targetId ∧
          ∃ trect, rects c.targetId = some trect ∧
            c.toPoint = ⟨posX tt, posY tt + trect.height / 2⟩ := by
  cases containerPresent with
  | false => simp [calculateConnectors] at hc
  | true =>
    rw [mem_calculateConnectors] at hc
    obtain ⟨s, hs, hcs⟩ := hc
    rw [mem_connectorsForSource] at hcs
    obtain ⟨srect, hsr, tid, htid, tt, htt, trect, htr, hceq⟩ := hcs
    subst hceq
    have httid : tt.id = tid := by
      have h0 := List.find?_some htt
      simpa using h0
    exact ⟨s, hs, rfl, srect, hsr, rfl,
      tt, List.mem_of_find?_eq_some htt, httid.symm ▸ rfl,
      trect, htr, rfl⟩

/-- C5 witness: the endpoint characterization applied to the one connector
of the demo graph. -/
theorem calculateConnectors_endpoints_witness :
    ∃ s ∈ demoTasks,
      s.id = (mkConn demoA ⟨380, 280⟩ demoB ⟨380, 280⟩ "B").sourceId ∧
      ∃ srect, demoRects s.id = some srect ∧
        (mkConn demoA ⟨380, 280⟩ demoB ⟨380, 280⟩ "B").fromPoint =
          ⟨posX s + srect.width, posY s + srect.height / 2⟩ ∧
        ∃ tt ∈ demoTasks,
          tt.id = (mkConn demoA ⟨380, 280⟩ demoB ⟨380, 280⟩ "B").targetId ∧
          ∃ trect,
            demoRects (mkConn demoA ⟨380, 280⟩ demoB ⟨380, 280⟩ "B").targetId =
              some trect ∧
            (mkConn demoA ⟨380, 280⟩ demoB ⟨380, 280⟩ "B").toPoint =
              ⟨posX tt, posY tt + trect.height / 2⟩ := by
  have hc : mkConn demoA ⟨380, 280⟩ demoB ⟨380, 280⟩ "B" ∈
      calculateConnectors true demoTasks demoRects := by
    rw [mem_calculateConnectors]
    refine ⟨demoA, by decide, ?_⟩
    rw [mem_connectorsForSource]
    exact ⟨⟨380, 280⟩, by decide, "B", by decide, demoB, by decide,
      ⟨380, 280⟩, by decide, rfl⟩
  exact calculateConnectors_endpoints true demoTasks demoRects _ hc

/-- C6: the commit of handleDeleteConnection, applied to the store,
replaces the edge list of the source node by the same list with every
occurrence of the target filtered out and leaves every other node
untouched; on the demo graph whose only edge is A to B, the edge set and
the recomputed connector list both become empty. -/
theorem disconnect_removes_target :
    (∀ (tasks : List ProjectTask) (s t : String) (src : ProjectTask),
        (tasks.map ProjectTask.id).Nodup →
        tasks.find? (fun x => x.id == s) = some src →
        disconnectStep tasks s t =
          tasks.map fun n =>
            if n.id == s then
              { n with nextTaskIds := some ((nextIds n).filter fun i => i != t) }
            else n) ∧
      (disconnectStep demoTasks "A" "B").map nextIds = [[], []] ∧
      calculateConnectors true (disconnectStep demoTasks "A" "B") demoRects = [] := by
  refine ⟨?_, by decide, by decide⟩
  intro tasks s t src hnodup hf
  have hsrcid : src.id = s := by
    have h0 := List.find?_some hf
    simpa using h0
  have hstep : disconnectStep tasks s t =
      setNodeConnections tasks src.id ((nextIds src).filter fun i => i != t) := by
    unfold disconnectStep handleDeleteConnection
    rw [hf]
    rfl
  rw [hstep]
  unfold setNodeConnections
  apply List.map_congr_left
  intro n hn
  by_cases hne : (n.id == src.id) = true
  · have hnid : n.id = src.id := by simpa using hne
    have hnsrc : n = src :=
      List.inj_on_of_nodup_map hnodup hn (List.mem_of_find?_eq_some hf) hnid
    rw [if_pos hne, if_pos (by rw [hsrcid] at hne; exact hne)]
    rw [hnsrc]
  · rw [if_neg hne, if_neg (by rw [hsrcid] at hne; exact hne)]

/-- C6 witness: the disconnect characterization on the demo graph. -/
theorem disconnect_removes_target_witness :
    disconnectStep demoTasks "A" "B" =
      demoTasks.map fun n =>
        if n.id == "A" then
          { n with nextTaskIds := some ((nextIds n).filter fun i => i != "B") }
        else n :=
  disconnect_removes_target.1 demoTasks "A" "B" demoA (by decide) (by decide)

/-- C7: canEdit holds exactly for the roles owner, admin and editor, and
canManage exactly for owner and admin; with canEdit false, every move,
connect and delete-edge gesture handler returns leaving the transient
state unchanged and committing no store mutation, and being total
functions they raise no error. -/
theorem canEdit_gating :
    ∀ (role : String) (tasks : List ProjectTask) (containerPresent : Bool)
      (cx cy cl ct sw sh slx sly : Rat) (taskId s t : String)
      (prevDrag : Option String × Point) (dragOffset : Point)
      (cardSize : Option Rect) (draggedTaskId : Option String)
      (prevConn : Option ConnectingState) (cs : Option ConnectingState),
      (canEditOf role = true ↔
        (role = "owner" ∨ role = "admin" ∨ role = "editor")) ∧
      (canManageOf role = true ↔ (role = "owner" ∨ role = "admin")) ∧
      handleDragCardStart false tasks containerPresent cx cy cl ct taskId
        prevDrag = prevDrag ∧
      handleDrop false containerPresent draggedTaskId cx cy cl ct sw sh
        dragOffset cardSize = none ∧
      handleStartConnection false containerPresent cx cy cl ct slx sly taskId
        prevConn = prevConn ∧
      handleEndConnection false tasks cs t = (cs, none) ∧
      handleDeleteConnection false tasks s t = none := by
  intro role tasks containerPresent cx cy cl ct sw sh slx sly taskId s t
    prevDrag dragOffset cardSize draggedTaskId prevConn cs
  refine ⟨?_, ?_, rfl, rfl, rfl, rfl, rfl⟩
  · simp [canEditOf, Bool.or_eq_true, beq_iff_eq, or_assoc]
  · simp [canManageOf, Bool.or_eq_true, beq_iff_eq]

/-- C8 counterexample: an INSERT notification for the project_members
table is delivered on the very channel that subscribeToProjectUpdates
opens, to the same callback that performs the reload check, and that
callback neither reloads nor refetches membership data, contradicting
both the separate-scope part and the refetch part of the claim. -/
theorem member_notification_counterexample :
    deliveredOnChannel "p1" ⟨"project_members", "INSERT"⟩ = true ∧
    projectUpdateHandler ⟨"project_members", "INSERT"⟩ ≠ SyncAction.reload ∧
    projectUpdateHandler ⟨"project_members", "INSERT"⟩ ≠
      SyncAction.refetchMembers := by
  refine ⟨by decide, by decide, by decide⟩

/-- C8 amended: the callback triggers a full reload exactly when the
payload reports table projects with event type UPDATE; project_members
notifications are delivered on the same project channel to the same
callback, which ignores them entirely, and invitation notifications are
not bound on this channel at all. -/
theorem reload_iff_project_update :
    ∀ (p : RealtimePayload) (projectId e : String),
      (projectUpdateHandler p = SyncAction.reload ↔
        (p.table = "projects" ∧ p.eventType = "UPDATE")) ∧
      projectUpdateHandler ⟨"project_members", e⟩ = SyncAction.noAction ∧
      deliveredOnChannel projectId ⟨"project_members", e⟩ = true ∧
      deliveredOnChannel projectId ⟨"projects", e⟩ = true ∧
      deliveredOnChannel projectId ⟨"project_invitations", e⟩ = false := by
  intro p projectId e
  refine ⟨?_, ?_, rfl, rfl, rfl⟩
  · unfold projectUpdateHandler
    by_cases h : (p.table == "projects" && p.eventType == "UPDATE") = true
    · rw [if_pos h]
      simp only [Bool.and_eq_true, beq_iff_eq] at h
      exact ⟨fun _ => h, fun _ => rfl⟩
    · rw [if_neg h]
      simp only [Bool.and_eq_true, beq_iff_eq] at h
      constructor
      · intro hcontra
        simp at hcontra
      · intro hconj
        exact absurd hconj h
  · rfl

/-- C9: every ProjectData record produced by the row mappings of
getProject, getProjects, createProject and updateProject carries a plain
task list in which a null tasks_data column has been replaced by the empty
list, so the tasks field is never null. -/
theorem projectRecord_tasks_total :
    ∀ (row : ProjectRow) (rows : List ProjectRow),
      (getProjectRecord row).tasks =
        (match row.tasks_data with | none => [] | some l => l) ∧
      (createProjectRecord row).tasks =
        (match row.tasks_data with | none => [] | some l => l) ∧
      (updateProjectRecord row).tasks =
        (match row.tasks_data with | none => [] | some l => l) ∧
      (getProjects rows).map ProjectData.tasks =
        rows.map fun r => match r.tasks_data with | none => [] | some l => l := by
  intro row rows
  refine ⟨?_, ?_, ?_, ?_⟩
  · cases h : row.tasks_data <;> simp [getProjectRecord, h]
  · cases h : row.tasks_data <;> simp [createProjectRecord, h]
  · cases h : row.tasks_data <;> simp [updateProjectRecord, h]
  · unfold getProjects
    rw [List.map_map]
    apply List.map_congr_left
    intro r _
    show (getProjectsRecord r).tasks = _
    cases h : r.tasks_data <;> simp [getProjectsRecord, h]

/-- C10: getUserRole returns null when no user is authenticated and when
the membership query fails, including the no-row failure reported by
single, and returns the stored role otherwise; being a total function
into an option it never throws. -/
theorem getUserRole_total :
    ∀ (query : String → Except String MemberRoleRow) (u : AuthUser)
      (e : String) (row : MemberRoleRow),
      getUserRole none query = none ∧
      (query u.id = Except.error e → getUserRole (some u) query = none) ∧
      (query u.id = Except.ok row → getUserRole (some u) query = some row.role) := by
  intro query u e row
  refine ⟨rfl, ?_, ?_⟩
  · intro h
    simp [getUserRole, h]
  · intro h
    simp [getUserRole, h]

/-- C10 witness: a failing membership query and a successful one, both
through concrete query functions. -/
theorem getUserRole_total_witness :
    getUserRole (some ⟨"u1"⟩) (fun _ => Except.error "no membership row") =
      none ∧
    getUserRole (some ⟨"u1"⟩) (fun _ => Except.ok ⟨"editor"⟩) =
      some "editor" :=
  ⟨(getUserRole_total (fun _ => Except.error "no membership row") ⟨"u1"⟩
      "no membership row" ⟨"editor"⟩).2.1 rfl,
   (getUserRole_total (fun _ => Except.ok ⟨"editor"⟩) ⟨"u1"⟩
      "e" ⟨"editor"⟩).2.2 rfl⟩
